import Mathlib

/-!
Shallow embedding of the parking-recommendation core of the OKState
campus-parking application (source: `MainUI_PySide6_v2.py`, with the
near-identical variant in `MainUI_PySide6.py`).

The Python code works on float coordinates and distances; the embedding is
parametric in a linearly ordered field `α` (instantiated at `ℝ` for the
haversine distance primitive and at `ℚ` for concrete evaluations), and the
distance method `_haversine_km` — dynamically dispatched in Python — is a
function parameter `hav` of the pipeline.  Python dicts for lots become
structures, the `filters` boolean list becomes a six-field structure, and
the `selected_passes` dict becomes an association list `List (String × Bool)`.
Python `set` values are modelled as lists with membership-based operations.
The `try/except` wrapper of `compute_nearest_parking` is modelled by an
`Except`-valued variant of the pipeline together with a guard that maps any
error to `([], none)`.
-/

namespace OKStateParking

/-- A parking lot record (`self.parking_places` entry): `name`, `lat`, `lon`,
`capacity`, `available`, plus the optional keys `passes` (default `[]`) and
`ada_spots` (default `0`) read with `.get`. -/
structure ParkingLot (α : Type) where
  name : String
  lat : α
  lon : α
  capacity : Int
  available : Int
  passes : List String
  ada_spots : Int
deriving DecidableEq

/-- An enriched lot as built inside `compute_nearest_parking`: the lot fields
plus `distance_km` and the effective pass list. -/
structure EnrichedLot (α : Type) where
  name : String
  lat : α
  lon : α
  capacity : Int
  available : Int
  distance_km : α
  passes : List String
deriving DecidableEq

/-- The `self.filters` list of six booleans (`[False]*6` initially).  Index 3
is the top-3 truncation toggle, index 4 the include-full-lots toggle, index 5
the ignore-eligibility override. -/
structure Filters where
  f0 : Bool
  f1 : Bool
  f2 : Bool
  f3 : Bool
  f4 : Bool
  f5 : Bool
deriving DecidableEq

/-- `spot_passes = set(p.get('passes', []))` augmented with `'ada'` when
`p.get('ada_spots', 0) > 0`. -/
def spotPasses {α : Type} (p : ParkingLot α) : List String :=
  if p.ada_spots > 0 then List.insert "ada" p.passes else p.passes

/-- `active_passes = {pass_id for pass_id, is_selected in
self.selected_passes.items() if is_selected}`. -/
def activePasses (selected : List (String × Bool)) : List String :=
  (selected.filter (fun kv => kv.2)).map (fun kv => kv.1)

/-- The eligibility test of line 1013 of `MainUI_PySide6_v2.py`:
`not active_passes or (spot_passes & active_passes) or self.filters[5]`,
taking the lot's effective pass set, the user's active pass set and the
override flag as inputs. -/
def eligible (lotPasses userActive : List String) (ignoreFlag : Bool) : Bool :=
  userActive.isEmpty || lotPasses.any (fun s => decide (s ∈ userActive)) || ignoreFlag

/-- The whole filter condition of line 1013:
eligibility `and (p['available'] > 0 or self.filters[4])`. -/
def passesFilter {α : Type} (selected : List (String × Bool)) (fil : Filters)
    (p : ParkingLot α) : Bool :=
  eligible (spotPasses p) (activePasses selected) fil.f5 &&
    (decide (0 < p.available) || fil.f4)

/-- The enriched dict appended for a lot whose distance came out as `d`. -/
def mkEnriched {α : Type} (p : ParkingLot α) (d : α) : EnrichedLot α :=
  { name := p.name, lat := p.lat, lon := p.lon, capacity := p.capacity,
    available := p.available, distance_km := d, passes := spotPasses p }

/-- One enriched entry: distance computed by the (dispatched) distance
method `hav`, mirroring `d = self._haversine_km(dest_lat, dest_lon, p['lat'],
p['lon'])` followed by the `enriched.append` of the dict. -/
def enrichLot {α : Type} (hav : α → α → α → α → α) (destLat destLon : α)
    (p : ParkingLot α) : EnrichedLot α :=
  mkEnriched p (hav destLat destLon p.lat p.lon)

/-- The enrichment loop of `compute_nearest_parking`: keep the lots passing
the line-1013 condition and enrich each with its distance. -/
def enrichedList {α : Type} (hav : α → α → α → α → α)
    (selected : List (String × Bool)) (fil : Filters)
    (places : List (ParkingLot α)) (destLat destLon : α) : List (EnrichedLot α) :=
  (places.filter (passesFilter selected fil)).map (enrichLot hav destLat destLon)

/-- The comparison used by `enriched.sort(key=lambda x: x['distance_km'])`. -/
def distLE {α : Type} [LinearOrderedField α] (a b : EnrichedLot α) : Bool :=
  decide (a.distance_km ≤ b.distance_km)

/-- The enriched list after the in-place stable sort by `distance_km`. -/
def sortedEnriched {α : Type} [LinearOrderedField α] (hav : α → α → α → α → α)
    (selected : List (String × Bool)) (fil : Filters)
    (places : List (ParkingLot α)) (destLat destLon : α) : List (EnrichedLot α) :=
  (enrichedList hav selected fil places destLat destLon).mergeSort distLE

/-- `SIMILAR_DISTANCE_KM = 0.05`. -/
def SIMILAR_DISTANCE_KM (α : Type) [LinearOrderedField α] : α := 5 / 100

/-- `color_for_avail`: green above 7, orange from 4 to 7, red below 4. -/
def color_for_avail (a : Int) : String :=
  if a > 7 then "green" else if a ≥ 4 then "orange" else "red"

/-- `candidates = [p for p in enriched if color_for_avail(p['available']) != 'red']`. -/
def candidatesOf {α : Type} (enr : List (EnrichedLot α)) : List (EnrichedLot α) :=
  enr.filter (fun p => decide (color_for_avail p.available ≠ "red"))

/-- `group = [c for c in candidates if abs(c['distance_km'] -
closest['distance_km']) <= SIMILAR_DISTANCE_KM]`. -/
def groupOf {α : Type} [LinearOrderedField α] (candidates : List (EnrichedLot α))
    (closest : EnrichedLot α) : List (EnrichedLot α) :=
  candidates.filter
    (fun c => decide (|c.distance_km - closest.distance_km| ≤ SIMILAR_DISTANCE_KM α))

/-- `greens = [g for g in group if color_for_avail(g['available']) == 'green']`. -/
def greensOf {α : Type} (group : List (EnrichedLot α)) : List (EnrichedLot α) :=
  group.filter (fun g => decide (color_for_avail g.available = "green"))

/-- `oranges = [g for g in group if color_for_avail(g['available']) == 'orange']`. -/
def orangesOf {α : Type} (group : List (EnrichedLot α)) : List (EnrichedLot α) :=
  group.filter (fun g => decide (color_for_avail g.available = "orange"))

/-- The comparison realised by `sort(key=lambda x: (-x['available'],
x['distance_km']))`: lexicographic on negated availability then distance. -/
def availDistLE {α : Type} [LinearOrderedField α] (x y : EnrichedLot α) : Bool :=
  decide (y.available < x.available ∨
    (x.available = y.available ∧ x.distance_km ≤ y.distance_km))

/-- A stable sort by descending availability then ascending distance. -/
def sortByAvailDist {α : Type} [LinearOrderedField α]
    (l : List (EnrichedLot α)) : List (EnrichedLot α) :=
  l.mergeSort availDistLE

/-- The recommendation block of `compute_nearest_parking`, applied to the
distance-sorted enriched list. -/
def recommendFrom {α : Type} [LinearOrderedField α]
    (enr : List (EnrichedLot α)) : Option (EnrichedLot α) :=
  match candidatesOf enr with
  | [] => none
  | closest :: rest =>
    let group := groupOf (closest :: rest) closest
    if group.length = 1 then some closest
    else
      let greens := greensOf group
      if greens.isEmpty then
        let oranges := orangesOf group
        if oranges.isEmpty then (sortByAvailDist group).head?
        else (sortByAvailDist oranges).head?
      else (sortByAvailDist greens).head?

/-- `compute_nearest_parking` without its `try/except` wrapper: the enriched
sorted list truncated to three entries when `filters[3]` is on, paired with
the recommendation computed from the full (untruncated) sorted list. -/
def compute_nearest_parking {α : Type} [LinearOrderedField α]
    (hav : α → α → α → α → α) (selected : List (String × Bool)) (fil : Filters)
    (places : List (ParkingLot α)) (destLat destLon : α) :
    List (EnrichedLot α) × Option (EnrichedLot α) :=
  let sorted := sortedEnriched hav selected fil places destLat destLon
  (if fil.f3 then sorted.take 3 else sorted, recommendFrom sorted)

/-- One enrichment step when the distance method may raise: the exception
propagates out of the loop. -/
def enrichLotE {α ε : Type} (havE : α → α → α → α → Except ε α)
    (destLat destLon : α) (p : ParkingLot α) : Except ε (EnrichedLot α) := do
  let d ← havE destLat destLon p.lat p.lon
  pure (mkEnriched p d)

/-- The enrichment loop when the distance method may raise. -/
def enrichedListE {α ε : Type} (havE : α → α → α → α → Except ε α)
    (selected : List (String × Bool)) (fil : Filters)
    (places : List (ParkingLot α)) (destLat destLon : α) :
    Except ε (List (EnrichedLot α)) :=
  (places.filter (passesFilter selected fil)).mapM (enrichLotE havE destLat destLon)

/-- The body of `compute_nearest_parking` inside the `try` block, with a
possibly-raising distance method. -/
def compute_nearest_parkingE {α ε : Type} [LinearOrderedField α]
    (havE : α → α → α → α → Except ε α) (selected : List (String × Bool))
    (fil : Filters) (places : List (ParkingLot α)) (destLat destLon : α) :
    Except ε (List (EnrichedLot α) × Option (EnrichedLot α)) := do
  let enriched ← enrichedListE havE selected fil places destLat destLon
  let sorted := enriched.mergeSort distLE
  pure (if fil.f3 then sorted.take 3 else sorted, recommendFrom sorted)

/-- The `try/except` wrapper of `compute_nearest_parking`: any raised
exception is caught and `([], None)` returned in its place. -/
def compute_nearest_parking_guarded {α ε : Type} [LinearOrderedField α]
    (havE : α → α → α → α → Except ε α) (selected : List (String × Bool))
    (fil : Filters) (places : List (ParkingLot α)) (destLat destLon : α) :
    List (EnrichedLot α) × Option (EnrichedLot α) :=
  match compute_nearest_parkingE havE selected fil places destLat destLon with
  | Except.ok r => r
  | Except.error _ => ([], none)

/-- `math.radians`. -/
noncomputable def radians (x : ℝ) : ℝ := x * Real.pi / 180

/-- `math.atan2(y, x)` over the reals (the `±0.0` float distinctions of the
origin collapse to the single value `0`). -/
noncomputable def atan2 (y x : ℝ) : ℝ :=
  if 0 < x then Real.arctan (y / x)
  else if x < 0 then
    (if 0 ≤ y then Real.arctan (y / x) + Real.pi else Real.arctan (y / x) - Real.pi)
  else if 0 < y then Real.pi / 2
  else if y < 0 then -(Real.pi / 2)
  else 0

/-- `math.sqrt`, which raises a `ValueError` (math domain error) on negative
input. -/
noncomputable def msqrt (x : ℝ) : Except String ℝ :=
  if x < 0 then Except.error "math domain error" else Except.ok (Real.sqrt x)

/-- The intermediate `a` of `_haversine_km`:
`sin(dphi/2)**2 + cos(phi1)*cos(phi2)*sin(dlambda/2)**2`. -/
noncomputable def hav_a (lat1 lon1 lat2 lon2 : ℝ) : ℝ :=
  Real.sin (radians (lat2 - lat1) / 2) ^ 2 +
    Real.cos (radians lat1) * Real.cos (radians lat2) *
      Real.sin (radians (lon2 - lon1) / 2) ^ 2

/-- `_haversine_km` with the two `math.sqrt` domain checks made explicit: the
value is `R * c` with `c = 2 * atan2(sqrt(a), sqrt(1-a))` and `R = 6371.0`. -/
noncomputable def haversine_kmE (lat1 lon1 lat2 lon2 : ℝ) : Except String ℝ := do
  let a := hav_a lat1 lon1 lat2 lon2
  let sa ← msqrt a
  let sb ← msqrt (1 - a)
  pure (6371 * (2 * atan2 sa sb))

/-- `_haversine_km` as a total real-valued function (`Real.sqrt` is total and
agrees with `math.sqrt` on the reachable, non-negative inputs). -/
noncomputable def haversine_km (lat1 lon1 lat2 lon2 : ℝ) : ℝ :=
  let a := hav_a lat1 lon1 lat2 lon2
  6371 * (2 * atan2 (Real.sqrt a) (Real.sqrt (1 - a)))

/-- The property format of the spec's recommendation tie-break: `r` is drawn
from `l` with maximal `available`, ties broken by smallest `distance_km`. -/
def bestOf {α : Type} [LinearOrderedField α] (l : List (EnrichedLot α))
    (o : Option (EnrichedLot α)) : Prop :=
  ∃ r, o = some r ∧ r ∈ l ∧ ∀ g ∈ l,
    g.available ≤ r.available ∧
      (g.available = r.available → r.distance_km ≤ g.distance_km)

/-- The spec's description of the recommendation selection (section 4.4),
transcribed from its words, as a predicate on the enriched distance-sorted
list `enr` and the produced recommendation `o`: no non-red candidate means
none; a one-element tie group means the closest candidate; otherwise the
best green, else the best orange, else the best member of the group. -/
def recommendationSpec {α : Type} [LinearOrderedField α]
    (enr : List (EnrichedLot α)) (o : Option (EnrichedLot α)) : Prop :=
  (candidatesOf enr = [] → o = none) ∧
  ∀ closest rest, candidatesOf enr = closest :: rest →
    ((groupOf (candidatesOf enr) closest).length = 1 → o = some closest) ∧
    ((groupOf (candidatesOf enr) closest).length ≠ 1 →
      (greensOf (groupOf (candidatesOf enr) closest) ≠ [] →
        bestOf (greensOf (groupOf (candidatesOf enr) closest)) o) ∧
      (greensOf (groupOf (candidatesOf enr) closest) = [] →
       orangesOf (groupOf (candidatesOf enr) closest) ≠ [] →
        bestOf (orangesOf (groupOf (candidatesOf enr) closest)) o) ∧
      (greensOf (groupOf (candidatesOf enr) closest) = [] →
       orangesOf (groupOf (candidatesOf enr) closest) = [] →
        bestOf (groupOf (candidatesOf enr) closest) o))

/-- A distance method that ignores its arguments; with it every lot is at
distance `0`, so any concrete conclusion is independent of the geometry. -/
def constZeroHav : ℚ → ℚ → ℚ → ℚ → ℚ := fun _ _ _ _ => 0

/-- A distance method for demonstrations that returns the lot's latitude,
letting concrete examples pin each lot's `distance_km` directly. -/
def latHav : ℚ → ℚ → ℚ → ℚ → ℚ := fun _ _ la _ => la

/-- Filter state with only the top-3 truncation (index 3) switched on. -/
def filtersTop3 : Filters := ⟨false, false, false, true, false, false⟩

/-- Filter state with every toggle off. -/
def filtersOff : Filters := ⟨false, false, false, false, false, false⟩

/-- Four co-located lots: three red ones (available 1, 2, 3) followed by a
green one (available 10). -/
def cexPlaces : List (ParkingLot ℚ) :=
  [⟨"A", 0, 0, 20, 1, [], 0⟩, ⟨"B", 0, 0, 20, 2, [], 0⟩,
   ⟨"C", 0, 0, 20, 3, [], 0⟩, ⟨"D", 0, 0, 20, 10, [], 0⟩]

/-- The green lot of `cexPlaces`. -/
def cexGreenLot : ParkingLot ℚ := ⟨"D", 0, 0, 20, 10, [], 0⟩

/-- A lot with ADA spots whose listed pass list does not contain `"ada"`. -/
def adaLot : ParkingLot ℚ := ⟨"AdaLot", 0, 0, 10, 5, ["staff"], 2⟩

/-- Two green lots 0.04 km apart (spec section 8 tie-break scenario):
availabilities 9 and 12. -/
def tiePlaces : List (ParkingLot ℚ) :=
  [⟨"P1", 1, 0, 30, 9, [], 0⟩, ⟨"P2", 26/25, 0, 30, 12, [], 0⟩]

/-- A red lot at 0.5 km and an orange lot at 0.6 km (spec section 8
red-exclusion scenario). -/
def redOrangePlaces : List (ParkingLot ℚ) :=
  [⟨"R", 1/2, 0, 30, 2, [], 0⟩, ⟨"O", 3/5, 0, 30, 5, [], 0⟩]

/-- A single red lot (available 2). -/
def singleRedPlaces : List (ParkingLot ℚ) := [⟨"R", 1, 0, 30, 2, [], 0⟩]

/-! ## Supporting lemmas -/

theorem color_green_iff (a : Int) : color_for_avail a = "green" ↔ 7 < a := by
  unfold color_for_avail
  split_ifs with h1 h2
  · exact iff_of_true rfl h1
  · exact iff_of_false (by decide) h1
  · exact iff_of_false (by decide) h1

theorem color_orange_iff (a : Int) :
    color_for_avail a = "orange" ↔ 4 ≤ a ∧ a ≤ 7 := by
  unfold color_for_avail
  split_ifs with h1 h2
  · exact iff_of_false (by decide) (by omega)
  · exact iff_of_true rfl (by omega)
  · exact iff_of_false (by decide) (by omega)

theorem color_red_iff (a : Int) : color_for_avail a = "red" ↔ a < 4 := by
  unfold color_for_avail
  split_ifs with h1 h2
  · exact iff_of_false (by decide) (by omega)
  · exact iff_of_false (by decide) (by omega)
  · exact iff_of_true rfl (by omega)

theorem mapM_ok {β γ ε : Type} (g : β → γ) :
    ∀ l : List β,
      (l.mapM (fun b => (Except.ok (g b) : Except ε γ))) = Except.ok (l.map g)
  | [] => rfl
  | b :: t => by rw [List.mapM_cons, mapM_ok g t]; rfl

theorem enrichedListE_ok {α ε : Type} (hav : α → α → α → α → α)
    (selected : List (String × Bool)) (fil : Filters)
    (places : List (ParkingLot α)) (destLat destLon : α) :
    enrichedListE (fun a b c d => (Except.ok (hav a b c d) : Except ε α))
        selected fil places destLat destLon =
      Except.ok (enrichedList hav selected fil places destLat destLon) := by
  rw [enrichedListE,
    show enrichLotE (fun a b c d => (Except.ok (hav a b c d) : Except ε α))
        destLat destLon = fun p => Except.ok (enrichLot hav destLat destLon p)
      from rfl,
    mapM_ok, enrichedList]

theorem distLE_trans {α : Type} [LinearOrderedField α] :
    ∀ a b c : EnrichedLot α, distLE a b → distLE b c → distLE a c := by
  intro a b c hab hbc
  simp only [distLE, decide_eq_true_eq] at *
  exact le_trans hab hbc

theorem distLE_total {α : Type} [LinearOrderedField α] :
    ∀ a b : EnrichedLot α, distLE a b || distLE b a := by
  intro a b
  simp only [distLE, Bool.or_eq_true, decide_eq_true_eq]
  exact le_total a.distance_km b.distance_km

theorem availDistLE_trans {α : Type} [LinearOrderedField α] :
    ∀ x y z : EnrichedLot α, availDistLE x y → availDistLE y z → availDistLE x z := by
  intro x y z hxy hyz
  simp only [availDistLE, decide_eq_true_eq] at *
  rcases hxy with h | ⟨h1, h2⟩ <;> rcases hyz with g | ⟨g1, g2⟩
  · exact Or.inl (by omega)
  · exact Or.inl (by omega)
  · exact Or.inl (by omega)
  · exact Or.inr ⟨h1.trans g1, h2.trans g2⟩

theorem availDistLE_total {α : Type} [LinearOrderedField α] :
    ∀ x y : EnrichedLot α, availDistLE x y || availDistLE y x := by
  intro x y
  simp only [availDistLE, Bool.or_eq_true, decide_eq_true_eq]
  rcases lt_trichotomy x.available y.available with h | h | h
  · exact Or.inr (Or.inl h)
  · rcases le_total x.distance_km y.distance_km with hd | hd
    · exact Or.inl (Or.inr ⟨h, hd⟩)
    · exact Or.inr (Or.inr ⟨h.symm, hd⟩)
  · exact Or.inl (Or.inl h)

theorem closest_mem_groupOf {α : Type} [LinearOrderedField α]
    {cands : List (EnrichedLot α)} {closest : EnrichedLot α}
    (h : closest ∈ cands) : closest ∈ groupOf cands closest := by
  rw [groupOf]
  refine List.mem_filter.2 ⟨h, ?_⟩
  rw [decide_eq_true_eq, sub_self, abs_zero, SIMILAR_DISTANCE_KM]
  positivity

theorem bestOf_sort_head {α : Type} [LinearOrderedField α]
    (l : List (EnrichedLot α)) (h : l ≠ []) :
    bestOf l (sortByAvailDist l).head? := by
  cases hs : sortByAvailDist l with
  | nil =>
    exfalso
    apply h
    have hp := List.mergeSort_perm l availDistLE
    rw [sortByAvailDist] at hs
    rw [hs] at hp
    exact List.Perm.eq_nil hp.symm
  | cons r t =>
    have hrmem : r ∈ l := by
      have hm : r ∈ sortByAvailDist l := by
        rw [hs]
        exact List.mem_cons_self r t
      rw [sortByAvailDist] at hm
      exact List.mem_mergeSort.1 hm
    have hpair : (r :: t).Pairwise (fun a b => availDistLE a b) := by
      rw [← hs, sortByAvailDist]
      exact List.sorted_mergeSort availDistLE_trans availDistLE_total l
    refine ⟨r, rfl, hrmem, ?_⟩
    intro g hg
    have hg2 : g ∈ r :: t := by
      rw [← hs, sortByAvailDist]
      exact List.mem_mergeSort.2 hg
    rcases List.mem_cons.1 hg2 with rfl | hgt
    · exact ⟨le_refl _, fun _ => le_refl _⟩
    · have hle := (List.pairwise_cons.1 hpair).1 g hgt
      simp only [availDistLE, decide_eq_true_eq] at hle
      rcases hle with h1 | ⟨h1, h2⟩
      · exact ⟨le_of_lt h1, fun he => by omega⟩
      · exact ⟨le_of_eq h1.symm, fun _ => h2⟩

theorem head_sort_mem {α : Type} [LinearOrderedField α]
    {l : List (EnrichedLot α)} {r : EnrichedLot α}
    (h : (sortByAvailDist l).head? = some r) : r ∈ l := by
  cases hs : sortByAvailDist l with
  | nil =>
    rw [hs] at h
    cases h
  | cons a t =>
    rw [hs] at h
    injection h with h
    subst h
    have hm : a ∈ sortByAvailDist l := by
      rw [hs]
      exact List.mem_cons_self a t
    rw [sortByAvailDist] at hm
    exact List.mem_mergeSort.1 hm

theorem recommendFrom_eq_of_nil {α : Type} [LinearOrderedField α]
    {enr : List (EnrichedLot α)} (hc : candidatesOf enr = []) :
    recommendFrom enr = none := by
  unfold recommendFrom
  rw [hc]

theorem recommendFrom_eq_of_cons {α : Type} [LinearOrderedField α]
    {enr : List (EnrichedLot α)} {closest : EnrichedLot α}
    {rest : List (EnrichedLot α)} (hc : candidatesOf enr = closest :: rest) :
    recommendFrom enr =
      (if (groupOf (closest :: rest) closest).length = 1 then some closest
       else if (greensOf (groupOf (closest :: rest) closest)).isEmpty then
         if (orangesOf (groupOf (closest :: rest) closest)).isEmpty then
           (sortByAvailDist (groupOf (closest :: rest) closest)).head?
         else (sortByAvailDist (orangesOf (groupOf (closest :: rest) closest))).head?
       else (sortByAvailDist (greensOf (groupOf (closest :: rest) closest))).head?) := by
  unfold recommendFrom
  rw [hc]

theorem recommendFrom_meets_spec {α : Type} [LinearOrderedField α]
    (enr : List (EnrichedLot α)) :
    recommendationSpec enr (recommendFrom enr) := by
  constructor
  · exact recommendFrom_eq_of_nil
  · intro closest rest hc
    rw [recommendFrom_eq_of_cons hc, hc]
    constructor
    · intro hlen
      rw [if_pos hlen]
    · intro hlen
      rw [if_neg hlen]
      refine ⟨?_, ?_, ?_⟩
      · intro hg
        rw [if_neg (by simpa [List.isEmpty_iff] using hg)]
        exact bestOf_sort_head _ hg
      · intro hg ho
        rw [if_pos (by simpa [List.isEmpty_iff] using hg),
          if_neg (by simpa [List.isEmpty_iff] using ho)]
        exact bestOf_sort_head _ ho
      · intro hg ho
        rw [if_pos (by simpa [List.isEmpty_iff] using hg),
          if_pos (by simpa [List.isEmpty_iff] using ho)]
        refine bestOf_sort_head _ (List.ne_nil_of_mem (closest_mem_groupOf ?_))
        exact List.mem_cons_self closest rest

theorem mem_of_recommendFrom {α : Type} [LinearOrderedField α]
    {enr : List (EnrichedLot α)} {r : EnrichedLot α}
    (h : recommendFrom enr = some r) : r ∈ enr := by
  have hsub : ∀ x, x ∈ candidatesOf enr → x ∈ enr :=
    fun x hx => (List.mem_filter.1 hx).1
  cases hc : candidatesOf enr with
  | nil =>
    rw [recommendFrom_eq_of_nil hc] at h
    cases h
  | cons closest rest =>
    have hgr : ∀ x, x ∈ groupOf (closest :: rest) closest → x ∈ enr := by
      intro x hx
      have hx1 : x ∈ candidatesOf enr := by
        rw [hc]
        exact (List.mem_filter.1 hx).1
      exact hsub x hx1
    rw [recommendFrom_eq_of_cons hc] at h
    split_ifs at h with h1 h2 h3
    · injection h with h
      subst h
      exact hsub _ (by rw [hc]; exact List.mem_cons_self _ _)
    · exact hgr _ (head_sort_mem h)
    · exact hgr _ ((List.mem_filter.1 (head_sort_mem h)).1)
    · exact hgr _ ((List.mem_filter.1 (head_sort_mem h)).1)

/-! ## Claim theorems -/

/-- C4: the occupancy classification is green exactly when `available > 7`,
orange exactly when `4 ≤ available ≤ 7`, red exactly when `available < 4`,
with the boundary values 8, 7, 4 and 3 classifying as green, orange, orange
and red; the classification is by construction a function of `available`
alone. -/
theorem C4_occupancy_classes : ∀ a : Int,
    ((color_for_avail a = "green") ↔ 7 < a) ∧
    ((color_for_avail a = "orange") ↔ 4 ≤ a ∧ a ≤ 7) ∧
    ((color_for_avail a = "red") ↔ a < 4) ∧
    color_for_avail 8 = "green" ∧ color_for_avail 7 = "orange" ∧
    color_for_avail 4 = "orange" ∧ color_for_avail 3 = "red" :=
  fun a => ⟨color_green_iff a, color_orange_iff a, color_red_iff a,
    by decide, by decide, by decide, by decide⟩

/-- C5: a lot passes the eligibility filter exactly when the override flag is
set, or the user's selected pass set is empty, or the lot's pass set meets
the user's; and an empty user pass set makes every lot eligible. -/
theorem C5_eligibility_filter : ∀ (lotPasses userActive : List String) (flag : Bool),
    (eligible lotPasses userActive flag = true ↔
      (flag = true ∨ userActive = [] ∨ ∃ s ∈ lotPasses, s ∈ userActive)) ∧
    (userActive = [] → eligible lotPasses userActive flag = true) := by
  intro lotPasses userActive flag
  constructor
  · simp only [eligible, Bool.or_eq_true, List.isEmpty_iff, List.any_eq_true,
      decide_eq_true_eq]
    constructor
    · rintro ((h | h) | h)
      · exact Or.inr (Or.inl h)
      · exact Or.inr (Or.inr h)
      · exact Or.inl h
    · rintro (h | h | h)
      · exact Or.inr h
      · exact Or.inl (Or.inl h)
      · exact Or.inl (Or.inr h)
  · intro h
    subst h
    simp [eligible]

/-- C10: a lot with `ada_spots > 0` is treated as if its pass set also
contained `"ada"`, so a user whose only selected pass is `"ada"` finds it
eligible whatever its listed passes. -/
theorem C10_ada_augmentation {α : Type} (p : ParkingLot α)
    (selected : List (String × Bool)) (flag : Bool) :
    0 < p.ada_spots →
      (∀ s : String, s ∈ spotPasses p ↔ (s = "ada" ∨ s ∈ p.passes)) ∧
      (activePasses selected = ["ada"] →
        eligible (spotPasses p) (activePasses selected) flag = true) := by
  intro h
  have hsp : spotPasses p = List.insert "ada" p.passes := by
    unfold spotPasses
    rw [if_pos h]
  constructor
  · intro s
    rw [hsp]
    simp [List.mem_insert_iff]
  · intro ha
    rw [hsp, ha]
    simp only [eligible, Bool.or_eq_true, List.any_eq_true, decide_eq_true_eq]
    exact Or.inl (Or.inr ⟨"ada", List.mem_insert_self _ _, by simp⟩)

/-- Witness for C10 at a concrete lot with two ADA spots and listed passes
`["staff"]`, with `"ada"` as the only selected pass. -/
theorem C10_ada_augmentation_witness :
    (∀ s : String, s ∈ spotPasses adaLot ↔ (s = "ada" ∨ s ∈ adaLot.passes)) ∧
    (activePasses [("ada", true)] = ["ada"] →
      eligible (spotPasses adaLot) (activePasses [("ada", true)]) false = true) :=
  C10_ada_augmentation adaLot [("ada", true)] false (by decide)

/-- C3: every entry of the enriched output comes from an input lot passing
both the eligibility filter and the availability filter, and when the
include-full-lots flag is off every enriched entry has `available > 0`. -/
theorem C3_ranking_filters {α : Type} [LinearOrderedField α]
    (hav : α → α → α → α → α) (selected : List (String × Bool)) (fil : Filters)
    (places : List (ParkingLot α)) (destLat destLon : α) :
    (∀ e ∈ enrichedList hav selected fil places destLat destLon,
      ∃ p, p ∈ places ∧
        eligible (spotPasses p) (activePasses selected) fil.f5 = true ∧
        (0 < p.available ∨ fil.f4 = true) ∧
        e = enrichLot hav destLat destLon p) ∧
    (fil.f4 = false →
      ∀ e ∈ enrichedList hav selected fil places destLat destLon,
        0 < e.available) := by
  constructor
  · intro e he
    rw [enrichedList] at he
    obtain ⟨p, hp, rfl⟩ := List.mem_map.1 he
    obtain ⟨hpl, hcond⟩ := List.mem_filter.1 hp
    rw [passesFilter, Bool.and_eq_true, Bool.or_eq_true, decide_eq_true_eq] at hcond
    exact ⟨p, hpl, hcond.1, hcond.2, rfl⟩
  · intro h4 e he
    rw [enrichedList] at he
    obtain ⟨p, hp, rfl⟩ := List.mem_map.1 he
    obtain ⟨hpl, hcond⟩ := List.mem_filter.1 hp
    rw [passesFilter, Bool.and_eq_true, Bool.or_eq_true, decide_eq_true_eq] at hcond
    rcases hcond.2 with h | h
    · exact h
    · rw [h4] at h
      exact absurd h (by decide)

theorem radians_sub (x y : ℝ) : radians (x - y) = radians x - radians y := by
  unfold radians
  ring

theorem hav_a_symm (lat1 lon1 lat2 lon2 : ℝ) :
    hav_a lat2 lon2 lat1 lon1 = hav_a lat1 lon1 lat2 lon2 := by
  unfold hav_a
  have h1 : radians (lat1 - lat2) = -(radians (lat2 - lat1)) := by
    unfold radians
    ring
  have h2 : radians (lon1 - lon2) = -(radians (lon2 - lon1)) := by
    unfold radians
    ring
  rw [h1, h2, neg_div, Real.sin_neg, neg_div, Real.sin_neg]
  ring

theorem hav_a_self (lat lon : ℝ) : hav_a lat lon lat lon = 0 := by
  unfold hav_a
  simp [radians]

theorem hav_a_bounds (lat1 lon1 lat2 lon2 : ℝ) :
    0 ≤ hav_a lat1 lon1 lat2 lon2 ∧ hav_a lat1 lon1 lat2 lon2 ≤ 1 := by
  unfold hav_a
  rw [radians_sub lat2 lat1]
  have hs1 : Real.sin ((radians lat2 - radians lat1) / 2) ^ 2 =
      1 / 2 - Real.cos (radians lat2 - radians lat1) / 2 := by
    rw [Real.sin_sq_eq_half_sub,
      show 2 * ((radians lat2 - radians lat1) / 2) =
        radians lat2 - radians lat1 from by ring]
  have hs2 : Real.sin (radians (lon2 - lon1) / 2) ^ 2 =
      1 / 2 - Real.cos (radians (lon2 - lon1)) / 2 := by
    rw [Real.sin_sq_eq_half_sub,
      show 2 * (radians (lon2 - lon1) / 2) = radians (lon2 - lon1) from by ring]
  rw [hs1, hs2, Real.cos_sub]
  set s1 := Real.sin (radians lat1)
  set s2 := Real.sin (radians lat2)
  set c1 := Real.cos (radians lat1)
  set c2 := Real.cos (radians lat2)
  set t := Real.cos (radians (lon2 - lon1))
  have p1 : s1 ^ 2 + c1 ^ 2 = 1 := Real.sin_sq_add_cos_sq _
  have p2 : s2 ^ 2 + c2 ^ 2 = 1 := Real.sin_sq_add_cos_sq _
  have q1 : -1 ≤ t := Real.neg_one_le_cos _
  have q2 : t ≤ 1 := Real.cos_le_one _
  constructor
  · nlinarith [sq_nonneg (s1 - s2), sq_nonneg (c1 - c2), sq_nonneg (c1 + c2),
      mul_nonneg (by linarith : (0:ℝ) ≤ 1 - t) (sq_nonneg (c1 + c2)),
      mul_nonneg (by linarith : (0:ℝ) ≤ 1 + t) (sq_nonneg (c1 - c2))]
  · nlinarith [sq_nonneg (s1 + s2), sq_nonneg (c1 - c2), sq_nonneg (c1 + c2),
      mul_nonneg (by linarith : (0:ℝ) ≤ 1 - t) (sq_nonneg (c1 - c2)),
      mul_nonneg (by linarith : (0:ℝ) ≤ 1 + t) (sq_nonneg (c1 + c2))]

theorem atan2_nonneg {y x : ℝ} (hy : 0 ≤ y) (hx : 0 ≤ x) : 0 ≤ atan2 y x := by
  unfold atan2
  split_ifs with h1 h2 h3 h4
  · rw [← Real.arctan_zero]
    exact Real.arctan_strictMono.monotone (div_nonneg hy h1.le)
  all_goals linarith [Real.pi_pos]

/-- C7: the distance primitive is the haversine formula with Earth radius
6371.0 km; it is symmetric, zero on identical points, non-negative, and its
`math.sqrt` domain checks never fire, so no input raises. -/
theorem C7_haversine_contract : ∀ lat1 lon1 lat2 lon2 : ℝ,
    haversine_km lat1 lon1 lat2 lon2 = haversine_km lat2 lon2 lat1 lon1 ∧
    haversine_km lat1 lon1 lat1 lon1 = 0 ∧
    0 ≤ haversine_km lat1 lon1 lat2 lon2 ∧
    haversine_kmE lat1 lon1 lat2 lon2 =
      Except.ok (haversine_km lat1 lon1 lat2 lon2) := by
  intro lat1 lon1 lat2 lon2
  obtain ⟨hb0, hb1⟩ := hav_a_bounds lat1 lon1 lat2 lon2
  refine ⟨?_, ?_, ?_, ?_⟩
  · simp only [haversine_km]
    rw [hav_a_symm lat1 lon1 lat2 lon2]
  · simp only [haversine_km]
    rw [hav_a_self]
    norm_num [atan2, Real.arctan_zero]
  · simp only [haversine_km]
    have h := atan2_nonneg (Real.sqrt_nonneg (hav_a lat1 lon1 lat2 lon2))
      (Real.sqrt_nonneg (1 - hav_a lat1 lon1 lat2 lon2))
    linarith
  · simp only [haversine_kmE, haversine_km]
    rw [show msqrt (hav_a lat1 lon1 lat2 lon2) =
        Except.ok (Real.sqrt (hav_a lat1 lon1 lat2 lon2)) from by
      rw [msqrt, if_neg (not_lt.2 hb0)]]
    rw [show msqrt (1 - hav_a lat1 lon1 lat2 lon2) =
        Except.ok (Real.sqrt (1 - hav_a lat1 lon1 lat2 lon2)) from by
      rw [msqrt, if_neg (not_lt.2 (by linarith))]]
    rfl

/-- C6: the enriched list returned by the ranking step is sorted
non-decreasing by `distance_km`, and entries sharing any one distance value
keep their original input order (the sort is stable). -/
theorem C6_sorted_stable {α : Type} [LinearOrderedField α]
    (hav : α → α → α → α → α) (selected : List (String × Bool)) (fil : Filters)
    (places : List (ParkingLot α)) (destLat destLon : α) :
    List.Pairwise (fun a b : EnrichedLot α => a.distance_km ≤ b.distance_km)
      (sortedEnriched hav selected fil places destLat destLon) ∧
    ∀ d : α,
      (sortedEnriched hav selected fil places destLat destLon).filter
          (fun e => decide (e.distance_km = d)) =
        (enrichedList hav selected fil places destLat destLon).filter
          (fun e => decide (e.distance_km = d)) := by
  constructor
  · have h := List.sorted_mergeSort distLE_trans distLE_total
      (enrichedList hav selected fil places destLat destLon)
    rw [sortedEnriched]
    exact h.imp (by simp [distLE])
  · intro d
    have hc : ((enrichedList hav selected fil places destLat destLon).filter
        (fun e => decide (e.distance_km = d))).Pairwise (fun a b => distLE a b) := by
      refine List.pairwise_iff_forall_sublist.mpr ?_
      intro a b hsub
      have ha := (List.mem_filter.1 (hsub.subset (List.mem_cons_self a [b]))).2
      have hb := (List.mem_filter.1 (hsub.subset (by simp :
        b ∈ [a, b]))).2
      simp only [decide_eq_true_eq] at ha hb
      simp only [distLE, decide_eq_true_eq, ha, hb, le_refl]
    have hsl : List.Sublist
        ((enrichedList hav selected fil places destLat destLon).filter
          (fun e => decide (e.distance_km = d)))
        (((enrichedList hav selected fil places destLat destLon).mergeSort
          distLE).filter (fun e => decide (e.distance_km = d))) := by
      have h1 := (List.sublist_mergeSort distLE_trans distLE_total hc
        (List.filter_sublist _)).filter (fun e => decide (e.distance_km = d))
      rwa [List.filter_eq_self.2 (fun a ha => (List.mem_filter.1 ha).2)] at h1
    have hlen : (((enrichedList hav selected fil places destLat destLon).mergeSort
          distLE).filter (fun e => decide (e.distance_km = d))).length =
        ((enrichedList hav selected fil places destLat destLon).filter
          (fun e => decide (e.distance_km = d))).length := by
      rw [← List.countP_eq_length_filter, ← List.countP_eq_length_filter]
      exact (List.mergeSort_perm
        (enrichedList hav selected fil places destLat destLon) distLE).countP_eq _
    rw [sortedEnriched]
    exact (hsl.eq_of_length hlen.symm).symm

/-- C1: the recommendation produced by `compute_nearest_parking` follows the
spec's selection procedure on the enriched distance-sorted list: none when
every candidate is red, the closest candidate when its tie group is a
singleton, and otherwise the best green member of the group, else the best
orange member, else the best member overall, where best means highest
`available` with ties broken by smallest `distance_km`. -/
theorem C1_recommendation_selection {α : Type} [LinearOrderedField α]
    (hav : α → α → α → α → α) (selected : List (String × Bool)) (fil : Filters)
    (places : List (ParkingLot α)) (destLat destLon : α) :
    recommendationSpec (sortedEnriched hav selected fil places destLat destLon)
      (compute_nearest_parking hav selected fil places destLat destLon).2 :=
  recommendFrom_meets_spec _

/-- C2 (amended): the recommendation is drawn from the full enriched sorted
list, before the top-3 truncation: it is none or an element of that full
list. -/
theorem C2_recommendation_from_full_list {α : Type} [LinearOrderedField α]
    (hav : α → α → α → α → α) (selected : List (String × Bool)) (fil : Filters)
    (places : List (ParkingLot α)) (destLat destLon : α) :
    (compute_nearest_parking hav selected fil places destLat destLon).2 = none ∨
    ∃ r, (compute_nearest_parking hav selected fil places destLat destLon).2 =
        some r ∧
      r ∈ sortedEnriched hav selected fil places destLat destLon := by
  cases h : (compute_nearest_parking hav selected fil places destLat destLon).2 with
  | none => exact Or.inl rfl
  | some r =>
    have h2 : recommendFrom
        (sortedEnriched hav selected fil places destLat destLon) = some r := h
    exact Or.inr ⟨r, rfl, mem_of_recommendFrom h2⟩

/-- C2 counterexample: with the top-3 truncation on, three co-located red
lots ahead of a green one, the recommendation is the green lot, which is not
an element of the truncated list handed to the caller. -/
theorem C2_counterexample_outside_top3 :
    (compute_nearest_parking constZeroHav [] filtersTop3 cexPlaces 0 0).2 =
      some (mkEnriched cexGreenLot 0) ∧
    mkEnriched cexGreenLot 0 ∉
      (compute_nearest_parking constZeroHav [] filtersTop3 cexPlaces 0 0).1 := by
  have henr : enrichedList constZeroHav [] filtersTop3 cexPlaces 0 0 =
      [⟨"A", 0, 0, 20, 1, 0, []⟩, ⟨"B", 0, 0, 20, 2, 0, []⟩,
       ⟨"C", 0, 0, 20, 3, 0, []⟩, ⟨"D", 0, 0, 20, 10, 0, []⟩] := by
    norm_num [enrichedList, cexPlaces, passesFilter, eligible, activePasses,
      spotPasses, filtersTop3, enrichLot, mkEnriched, constZeroHav]
  have hsort : sortedEnriched constZeroHav [] filtersTop3 cexPlaces 0 0 =
      [⟨"A", 0, 0, 20, 1, 0, []⟩, ⟨"B", 0, 0, 20, 2, 0, []⟩,
       ⟨"C", 0, 0, 20, 3, 0, []⟩, ⟨"D", 0, 0, 20, 10, 0, []⟩] := by
    rw [sortedEnriched, henr]
    exact List.mergeSort_of_sorted (by norm_num [List.pairwise_cons, distLE])
  have hcand : candidatesOf
      ([⟨"A", 0, 0, 20, 1, 0, []⟩, ⟨"B", 0, 0, 20, 2, 0, []⟩,
        ⟨"C", 0, 0, 20, 3, 0, []⟩, ⟨"D", 0, 0, 20, 10, 0, []⟩] :
        List (EnrichedLot ℚ)) = [⟨"D", 0, 0, 20, 10, 0, []⟩] := by
    simp [candidatesOf, color_for_avail]
  have hrec : recommendFrom
      ([⟨"A", 0, 0, 20, 1, 0, []⟩, ⟨"B", 0, 0, 20, 2, 0, []⟩,
        ⟨"C", 0, 0, 20, 3, 0, []⟩, ⟨"D", 0, 0, 20, 10, 0, []⟩] :
        List (EnrichedLot ℚ)) = some ⟨"D", 0, 0, 20, 10, 0, []⟩ := by
    rw [recommendFrom_eq_of_cons hcand]
    norm_num [groupOf, SIMILAR_DISTANCE_KM]
  constructor
  · show recommendFrom (sortedEnriched constZeroHav [] filtersTop3 cexPlaces 0 0) =
      some (mkEnriched cexGreenLot 0)
    rw [hsort, hrec]
    rfl
  · show mkEnriched cexGreenLot 0 ∉
      (if filtersTop3.f3 then
        (sortedEnriched constZeroHav [] filtersTop3 cexPlaces 0 0).take 3
       else sortedEnriched constZeroHav [] filtersTop3 cexPlaces 0 0)
    rw [hsort]
    show mkEnriched cexGreenLot 0 ∈
        ([⟨"A", 0, 0, 20, 1, 0, []⟩, ⟨"B", 0, 0, 20, 2, 0, []⟩,
          ⟨"C", 0, 0, 20, 3, 0, []⟩] : List (EnrichedLot ℚ)) → False
    intro hmem
    simp [mkEnriched, cexGreenLot, spotPasses, List.mem_cons] at hmem

/-- C8: when no lot passes the filters the result is the empty list and no
recommendation; when every enriched lot is red the ranked list is returned
unchanged (up to the top-3 truncation) and the recommendation is none; both
are ordinary return values of the total function. -/
theorem C8_empty_and_all_red {α : Type} [LinearOrderedField α]
    (hav : α → α → α → α → α) (selected : List (String × Bool)) (fil : Filters)
    (places : List (ParkingLot α)) (destLat destLon : α) :
    (places.filter (passesFilter selected fil) = [] →
      compute_nearest_parking hav selected fil places destLat destLon =
        ([], none)) ∧
    ((∀ e ∈ sortedEnriched hav selected fil places destLat destLon,
        color_for_avail e.available = "red") →
      (compute_nearest_parking hav selected fil places destLat destLon).1 =
        (if fil.f3 then
          (sortedEnriched hav selected fil places destLat destLon).take 3
         else sortedEnriched hav selected fil places destLat destLon) ∧
      (compute_nearest_parking hav selected fil places destLat destLon).2 =
        none) := by
  constructor
  · intro h
    have hs : sortedEnriched hav selected fil places destLat destLon = [] := by
      rw [sortedEnriched, enrichedList, h]
      simp
    have hr : recommendFrom ([] : List (EnrichedLot α)) = none :=
      recommendFrom_eq_of_nil rfl
    have h1 : (compute_nearest_parking hav selected fil places destLat
        destLon).1 = [] := by
      show (if fil.f3 then (sortedEnriched hav selected fil places destLat
        destLon).take 3 else sortedEnriched hav selected fil places destLat
        destLon) = []
      rw [hs]
      cases fil.f3 <;> rfl
    have h2 : (compute_nearest_parking hav selected fil places destLat
        destLon).2 = none := by
      show recommendFrom (sortedEnriched hav selected fil places destLat
        destLon) = none
      rw [hs, hr]
    calc compute_nearest_parking hav selected fil places destLat destLon
        = ((compute_nearest_parking hav selected fil places destLat destLon).1,
           (compute_nearest_parking hav selected fil places destLat destLon).2) := rfl
      _ = ([], none) := by rw [h1, h2]
  · intro hred
    have hc : candidatesOf
        (sortedEnriched hav selected fil places destLat destLon) = [] := by
      rw [candidatesOf, List.filter_eq_nil_iff]
      intro e he
      simp [hred e he]
    exact ⟨rfl, recommendFrom_eq_of_nil hc⟩

/-- C9: the guarded `compute_nearest_parking` never propagates an error: it
returns the try-block's value when no step raises and `([], none)` when one
does, and over a distance method that cannot raise it agrees with the plain
pipeline. -/
theorem C9_no_exception_escape {α ε : Type} [LinearOrderedField α]
    (havE : α → α → α → α → Except ε α) (selected : List (String × Bool))
    (fil : Filters) (places : List (ParkingLot α)) (destLat destLon : α) :
    ((∃ r, compute_nearest_parkingE havE selected fil places destLat destLon =
          Except.ok r ∧
        compute_nearest_parking_guarded havE selected fil places destLat destLon = r) ∨
     (∃ e, compute_nearest_parkingE havE selected fil places destLat destLon =
          Except.error e ∧
        compute_nearest_parking_guarded havE selected fil places destLat destLon =
          ([], none))) ∧
    (∀ hav : α → α → α → α → α,
      compute_nearest_parking_guarded
          (fun a b c d => (Except.ok (hav a b c d) : Except ε α))
          selected fil places destLat destLon =
        compute_nearest_parking hav selected fil places destLat destLon) := by
  constructor
  · cases h : compute_nearest_parkingE havE selected fil places destLat destLon with
    | ok r =>
      exact Or.inl ⟨r, rfl, by rw [compute_nearest_parking_guarded, h]⟩
    | error e =>
      exact Or.inr ⟨e, rfl, by rw [compute_nearest_parking_guarded, h]⟩
  · intro hav
    rw [compute_nearest_parking_guarded, compute_nearest_parkingE,
      enrichedListE_ok]
    rfl

/-- Spec section 8 tie-break scenario: two greens 0.04 km apart with
availabilities 9 and 12; the farther lot with availability 12 wins. -/
theorem tie_window_demo :
    (compute_nearest_parking latHav [] filtersOff tiePlaces 0 0).2 =
      some ⟨"P2", 26/25, 0, 30, 12, 26/25, []⟩ := by
  have henr : enrichedList latHav [] filtersOff tiePlaces 0 0 =
      [⟨"P1", 1, 0, 30, 9, 1, []⟩, ⟨"P2", 26/25, 0, 30, 12, 26/25, []⟩] := by
    norm_num [enrichedList, tiePlaces, passesFilter, eligible, activePasses,
      spotPasses, filtersOff, enrichLot, mkEnriched, latHav]
  have hsort : sortedEnriched latHav [] filtersOff tiePlaces 0 0 =
      [⟨"P1", 1, 0, 30, 9, 1, []⟩, ⟨"P2", 26/25, 0, 30, 12, 26/25, []⟩] := by
    rw [sortedEnriched, henr]
    exact List.mergeSort_of_sorted (by norm_num [List.pairwise_cons, distLE])
  have hcand : candidatesOf
      ([⟨"P1", 1, 0, 30, 9, 1, []⟩, ⟨"P2", 26/25, 0, 30, 12, 26/25, []⟩] :
        List (EnrichedLot ℚ)) =
      [⟨"P1", 1, 0, 30, 9, 1, []⟩, ⟨"P2", 26/25, 0, 30, 12, 26/25, []⟩] := by
    simp [candidatesOf, color_for_avail]
  have hrec : recommendFrom
      ([⟨"P1", 1, 0, 30, 9, 1, []⟩, ⟨"P2", 26/25, 0, 30, 12, 26/25, []⟩] :
        List (EnrichedLot ℚ)) = some ⟨"P2", 26/25, 0, 30, 12, 26/25, []⟩ := by
    rw [recommendFrom_eq_of_cons hcand]
    norm_num [groupOf, SIMILAR_DISTANCE_KM, greensOf, orangesOf,
      color_for_avail, sortByAvailDist, availDistLE, List.mergeSort,
      List.splitInTwo, List.merge, sub_self, abs_zero, abs_of_nonneg,
      abs_of_nonpos]
  show recommendFrom (sortedEnriched latHav [] filtersOff tiePlaces 0 0) = _
  rw [hsort, hrec]

/-- Spec section 8 red-exclusion scenario: a red lot at 0.5 km and an orange
lot at 0.6 km; the orange lot is recommended. -/
theorem red_excluded_demo :
    (compute_nearest_parking latHav [] filtersOff redOrangePlaces 0 0).2 =
      some ⟨"O", 3/5, 0, 30, 5, 3/5, []⟩ := by
  have henr : enrichedList latHav [] filtersOff redOrangePlaces 0 0 =
      [⟨"R", 1/2, 0, 30, 2, 1/2, []⟩, ⟨"O", 3/5, 0, 30, 5, 3/5, []⟩] := by
    norm_num [enrichedList, redOrangePlaces, passesFilter, eligible,
      activePasses, spotPasses, filtersOff, enrichLot, mkEnriched, latHav]
  have hsort : sortedEnriched latHav [] filtersOff redOrangePlaces 0 0 =
      [⟨"R", 1/2, 0, 30, 2, 1/2, []⟩, ⟨"O", 3/5, 0, 30, 5, 3/5, []⟩] := by
    rw [sortedEnriched, henr]
    exact List.mergeSort_of_sorted (by norm_num [List.pairwise_cons, distLE])
  have hcand : candidatesOf
      ([⟨"R", 1/2, 0, 30, 2, 1/2, []⟩, ⟨"O", 3/5, 0, 30, 5, 3/5, []⟩] :
        List (EnrichedLot ℚ)) = [⟨"O", 3/5, 0, 30, 5, 3/5, []⟩] := by
    simp [candidatesOf, color_for_avail]
  have hrec : recommendFrom
      ([⟨"R", 1/2, 0, 30, 2, 1/2, []⟩, ⟨"O", 3/5, 0, 30, 5, 3/5, []⟩] :
        List (EnrichedLot ℚ)) = some ⟨"O", 3/5, 0, 30, 5, 3/5, []⟩ := by
    rw [recommendFrom_eq_of_cons hcand]
    norm_num [groupOf, SIMILAR_DISTANCE_KM]
  show recommendFrom (sortedEnriched latHav [] filtersOff redOrangePlaces 0 0) = _
  rw [hsort, hrec]

/-- Spec section 8 single-red-lot scenario: the ranked list still holds the
lot, the recommendation is none. -/
theorem single_red_demo :
    (compute_nearest_parking latHav [] filtersOff singleRedPlaces 0 0).1 =
      [⟨"R", 1, 0, 30, 2, 1, []⟩] ∧
    (compute_nearest_parking latHav [] filtersOff singleRedPlaces 0 0).2 =
      none := by
  have hsort : sortedEnriched latHav [] filtersOff singleRedPlaces 0 0 =
      [⟨"R", 1, 0, 30, 2, 1, []⟩] := by
    rw [sortedEnriched,
      show enrichedList latHav [] filtersOff singleRedPlaces 0 0 =
        [⟨"R", 1, 0, 30, 2, 1, []⟩] from by
      norm_num [enrichedList, singleRedPlaces, passesFilter, eligible,
        activePasses, spotPasses, filtersOff, enrichLot, mkEnriched, latHav]]
    simp
  constructor
  · show (sortedEnriched latHav [] filtersOff singleRedPlaces 0 0) = _
    rw [hsort]
  · show recommendFrom (sortedEnriched latHav [] filtersOff singleRedPlaces 0 0) =
      none
    rw [hsort]
    exact recommendFrom_eq_of_nil (by simp [candidatesOf, color_for_avail])

end OKStateParking
